import Mathlib

set_option maxRecDepth 40000

/-!
# Verification of `scripts/update_lrs_tiers.py`

A shallow embedding of the tier-derivation logic of
`scripts/update_lrs_tiers.py` (function `add_enhanced_tiers`), together
with theorems settling the specification's claims about it.

Modelling choices:

* Python numbers appearing in this program are either arbitrary-precision
  integers or IEEE-754 binary64 floats.  Both are dyadic rationals, so we
  model every numeric value as a dyadic rational `Dy` (an integer
  numerator over a power-of-two denominator).  Integer arithmetic
  (`+`, `-`, `max`, `min` on epoch/step/batch counts) is exact in Python
  and is modelled exactly.  Float multiplication (`* 0.8`, `* 1.15` on the
  learning-rate fields) rounds to binary64; we model it with an explicit
  round-to-nearest, ties-to-even function `flRat`/`flD` (valid on the
  normal binary64 range, which covers every value this program touches).
  Decimal float literals of the source (`0.8`, `1.15`, `5e-05`, `2.5e-06`,
  `0.015`, `0.045`) denote the binary64 value nearest to the written
  decimal, i.e. `flRat` of the decimal fraction.
* Python `dict`s are ordered; we model them as association lists with the
  operations `dictGet?`/`dictGetD`/`dictMem`/`dictSet`/`dictPrepend`
  mirroring `d.get`, `k in d`, `d[k] = v` (update in place, insertion
  order preserved; new keys appended) and `{"k": v, **d}` (key `k` first;
  on a duplicate the spread's value wins while the position stays first).
* Fallible Python code (a `TypeError` from arithmetic on a non-numeric
  value) is modelled with `Option`: `none` is a raised exception.
-/

/-- A dyadic rational `n / 2^d`: the common domain of Python's exact
integers (`d = 0`) and binary64 floats. -/
structure Dy where
  n : Int
  d : Nat
deriving DecidableEq, Repr

namespace Dy

/-- Numeric (Python `==`) equality: `n₁/2^d₁ = n₂/2^d₂` by cross
multiplication. -/
def beq (x y : Dy) : Bool := x.n * 2 ^ y.d == y.n * 2 ^ x.d

/-- Numeric `≤` by cross multiplication (denominators are positive). -/
def ble (x y : Dy) : Bool := x.n * 2 ^ y.d ≤ y.n * 2 ^ x.d

/-- Numeric `<` by cross multiplication. -/
def blt (x y : Dy) : Bool := x.n * 2 ^ y.d < y.n * 2 ^ x.d

/-- Exact addition. -/
def add (x y : Dy) : Dy := ⟨x.n * 2 ^ y.d + y.n * 2 ^ x.d, x.d + y.d⟩

/-- Exact subtraction. -/
def sub (x y : Dy) : Dy := ⟨x.n * 2 ^ y.d - y.n * 2 ^ x.d, x.d + y.d⟩

/-- Exact product (to be rounded by the caller where Python multiplies
floats). -/
def mulExact (x y : Dy) : Dy := ⟨x.n * y.n, x.d + y.d⟩

/-- Python `max(a, b)`: returns `b` only when `b > a`. -/
def pyMax (a b : Dy) : Dy := if blt a b then b else a

/-- Python `min(a, b)`: returns `b` only when `b < a`. -/
def pyMin (a b : Dy) : Dy := if blt b a then b else a

/-- An integer literal of the source. -/
def ofInt (n : Int) : Dy := ⟨n, 0⟩

end Dy

/-- Canonical form of `n / 2^d`: strip common factors of 2, so that
structurally equal `Dy`s are exactly the numerically equal ones among
the canonical values. -/
def dyNorm : Int → Nat → Dy
  | n, 0 => ⟨n, 0⟩
  | n, d + 1 => if n % 2 == 0 then dyNorm (n / 2) d else ⟨n, d + 1⟩

/-- `m · 2 ^ e` as a canonical `Dy`, for an integer mantissa `q ≥ 0`
with sign `neg`. -/
def dyOfMantissa (neg : Bool) (q : Nat) (e : Int) : Dy :=
  let m : Int := if neg then -(q : Int) else (q : Int)
  if 0 ≤ e then ⟨m * 2 ^ e.toNat, 0⟩ else dyNorm m (-e).toNat

/-- Round `a / b ≥ 0` (times `2 ^ e`) to 53 significant bits, nearest,
ties to even: scale into `[2^52 · b, 2^53 · b)`, then round the integer
quotient.  The fuel bounds the binade search; `9000` covers (far beyond)
the whole binary64 range, on which this equals IEEE-754 binary64
rounding of a value in the normal range. -/
def flRatAux : Nat → Nat → Nat → Int → Dy
  | 0, _, _, _ => ⟨0, 0⟩
  | fuel + 1, a, b, e =>
    if a < 2 ^ 52 * b then flRatAux fuel (2 * a) b (e - 1)
    else if 2 ^ 53 * b ≤ a then flRatAux fuel a (2 * b) (e + 1)
    else
      let q := a / b
      let r := a % b
      let m := if 2 * r < b then q
               else if b < 2 * r then q + 1
               else if q % 2 == 0 then q else q + 1
      dyOfMantissa false m e

/-- Binary64 value of the non-negative real `a / b` (normal range). -/
def flRat (a b : Nat) : Dy :=
  if a = 0 then ⟨0, 0⟩ else flRatAux 9000 a b 0

/-- Binary64 rounding of a dyadic rational (normal range): the result of
a Python float operation whose exact value is `x`. -/
def flD (x : Dy) : Dy :=
  if x.n < 0 then
    let p := flRat x.n.natAbs (2 ^ x.d)
    ⟨-p.n, p.d⟩
  else flRat x.n.natAbs (2 ^ x.d)

/-- Python float multiplication `v * c` where `c` is a float constant:
`v` is first converted to binary64 (a no-op when it already is one), the
exact product is then rounded to binary64. -/
def pyMulF (v c : Dy) : Dy := flD (Dy.mulExact (flD v) c)

/-- The binary64 value of the source literal `0.8`. -/
def lit_0_8 : Dy := flRat 8 10

/-- The binary64 value of the source literal `1.15`. -/
def lit_1_15 : Dy := flRat 115 100

/-- The binary64 value of the source literal `5e-05`. -/
def lit_5em5 : Dy := flRat 5 100000

/-- The binary64 value of the source literal `2.5e-06`. -/
def lit_2_5em6 : Dy := flRat 25 10000000

/-- The binary64 value of the source literal `0.015`. -/
def lit_0_015 : Dy := flRat 15 1000

/-- The binary64 value of the source literal `0.045`. -/
def lit_0_045 : Dy := flRat 45 1000

/-- A Python value stored in a `TierConfig`: a number (int or float, both
dyadic), a string, or a list of strings (`optimizer_args`).  These are
the value shapes §3 of the spec gives for tier parameters. -/
inductive PValue where
  | num (x : Dy)
  | str (s : String)
  | strList (l : List String)
deriving DecidableEq, Repr

/-- Python `repr` of a string with no quotes/escapes in it, as it appears
inside `str` of a list. -/
def pyReprStr (s : String) : String := "'" ++ s ++ "'"

/-- Python `str()` of a stored value, as used by line 35 of the source
(`str(xxs_config.get("optimizer_args", []))`).  For a list of strings it
is the bracketed, comma-separated list of quoted elements; a bare string
renders as itself; a number renders as digits (with sign, point, slash or
exponent only — never containing a letter sequence like `weight_decay`,
which is all the caller inspects). -/
def pyStr : PValue → String
  | .num x => toString x.n ++ "/2^" ++ toString x.d
  | .str s => s
  | .strList l => "[" ++ String.intercalate ", " (l.map pyReprStr) ++ "]"

/-- `needle` occurs at the start of `hay`. -/
def charsStartWith : List Char → List Char → Bool
  | [], _ => true
  | _ :: _, [] => false
  | a :: as, b :: bs => a == b && charsStartWith as bs

/-- `needle` occurs somewhere in `hay` (Python's `in` on strings). -/
def charsContain (needle : List Char) : List Char → Bool
  | [] => charsStartWith needle []
  | c :: rest => charsStartWith needle (c :: rest) || charsContain needle rest

/-- Python's `"weight_decay" in s` substring test. -/
def containsWD (s : String) : Bool :=
  charsContain "weight_decay".data s.data

/-- A tier's parameter dictionary (`TierConfig`). -/
abbrev TierConfig := List (String × PValue)

/-- A model's ordered tier table (`ConfigTable`). -/
abbrev ConfigTable := List (String × TierConfig)

/-- The `data` mapping of a registry document: model hash → ConfigTable. -/
abbrev ModelRegistry := List (String × ConfigTable)

/-- Python `d.get(k)` / `d[k]`: value at the key, if present.  (A Python
dict has each key at most once; on such lists "first occurrence" is "the
occurrence".) -/
def dictGet? {α : Type} : List (String × α) → String → Option α
  | [], _ => none
  | p :: t, k => if p.1 = k then some p.2 else dictGet? t k

/-- Python `d.get(k, v₀)`. -/
def dictGetD {α : Type} (d : List (String × α)) (k : String) (v₀ : α) : α :=
  (dictGet? d k).getD v₀

/-- Python `k in d`. -/
def dictMem {α : Type} : List (String × α) → String → Bool
  | [], _ => false
  | p :: t, k => p.1 == k || dictMem t k

/-- Python `d[k] = v`: an existing key keeps its position and gets the
new value; a new key is appended (insertion order). -/
def dictSet {α : Type} : List (String × α) → String → α → List (String × α)
  | [], k, v => [(k, v)]
  | p :: t, k, v => if p.1 = k then (k, v) :: t else p :: dictSet t k v

/-- Removal of a key (the `**`-spread of a dict literal never repeats a
key that the literal already bound). -/
def dictRemove {α : Type} : List (String × α) → String → List (String × α)
  | [], _ => []
  | p :: t, k => if p.1 = k then dictRemove t k else p :: dictRemove t k

/-- Python `{k: v, **d}`: key `k` comes first; if `d` also has `k`, the
spread's value wins while the position stays first. -/
def dictPrepend {α : Type} (k : String) (v : α) (d : List (String × α)) :
    List (String × α) :=
  if dictMem d k then (k, dictGetD d k v) :: dictRemove d k
  else (k, v) :: d

/-- `d.get(k, default)` followed by use as a number: `some` the numeric
value (the default when the key is absent), `none` when the stored value
is not a number (Python would raise `TypeError` at the arithmetic). -/
def pyNumD (d : TierConfig) (k : String) (v₀ : Dy) : Option Dy :=
  match dictGet? d k with
  | none => some v₀
  | some (.num x) => some x
  | some _ => none

/-- Lines 28–31 / 52–53 pattern without a cap:
`if k in c: c[k] = c[k] * factor`. -/
def scaleField (c : TierConfig) (k : String) (factor : Dy) :
    Option TierConfig :=
  match dictGet? c k with
  | none => some c
  | some (.num x) => some (dictSet c k (.num (pyMulF x factor)))
  | some _ => none

/-- Lines 52–55 pattern: `if k in c: c[k] = min(cap, c[k] * factor)`. -/
def scaleClampField (c : TierConfig) (k : String) (factor cap : Dy) :
    Option TierConfig :=
  match dictGet? c k with
  | none => some c
  | some (.num x) => some (dictSet c k (.num (Dy.pyMin cap (pyMulF x factor))))
  | some _ => none

/-- The fixed `optimizer_args` replacement of lines 37–41. -/
def fixedOptimizerArgs : List String :=
  ["betas=(0.9, 0.999)", "weight_decay=0.0002", "eps=1e-08"]

/-- The parameter names written by the `xxs` derivation (lines 25–41). -/
def xxsTouched : List String :=
  ["max_train_epochs", "train_batch_size", "gradient_accumulation_steps",
   "unet_lr", "text_encoder_lr", "noise_offset", "lr_scheduler",
   "max_data_loader_n_workers", "optimizer_args"]

/-- The parameter names written by the `xxl` derivation (lines 49–59). -/
def xxlTouched : List String :=
  ["max_train_epochs", "train_batch_size", "gradient_accumulation_steps",
   "unet_lr", "text_encoder_lr", "noise_offset", "lr_scheduler",
   "lr_warmup_steps", "max_data_loader_n_workers"]

/-- Lines 23–41 of the source: build the `xxs` tier from a copy of the
`xs` tier (the caller only uses this when the copy is non-empty). -/
def deriveXXS (xs_config : TierConfig) : Option TierConfig :=
  (pyNumD xs_config "max_train_epochs" (Dy.ofInt 38)).bind fun e =>
  let c := dictSet xs_config "max_train_epochs" (.num (Dy.add e (Dy.ofInt 7)))
  let c := dictSet c "train_batch_size" (.num (Dy.ofInt 2))
  let c := dictSet c "gradient_accumulation_steps" (.num (Dy.ofInt 4))
  (scaleField c "unet_lr" lit_0_8).bind fun c =>
  (scaleField c "text_encoder_lr" lit_0_8).bind fun c =>
  let c := dictSet c "noise_offset" (.num lit_0_015)
  let c := dictSet c "lr_scheduler" (.str "constant_with_warmup")
  let c := dictSet c "max_data_loader_n_workers" (.num (Dy.ofInt 2))
  let c :=
    if containsWD (pyStr (dictGetD c "optimizer_args" (.strList []))) then
      dictSet c "optimizer_args" (.strList fixedOptimizerArgs)
    else c
  some c

/-- Lines 47–59 of the source: build the `xxl` tier from a copy of the
`xl` tier (the caller only uses this when the copy is non-empty). -/
def deriveXXL (xl_config : TierConfig) : Option TierConfig :=
  (pyNumD xl_config "max_train_epochs" (Dy.ofInt 11)).bind fun e =>
  let c := dictSet xl_config "max_train_epochs"
    (.num (Dy.pyMax (Dy.ofInt 8) (Dy.sub e (Dy.ofInt 3))))
  (pyNumD c "train_batch_size" (Dy.ofInt 12)).bind fun b =>
  let c := dictSet c "train_batch_size"
    (.num (Dy.pyMin (Dy.ofInt 16) (Dy.add b (Dy.ofInt 4))))
  let c := dictSet c "gradient_accumulation_steps" (.num (Dy.ofInt 1))
  (scaleClampField c "unet_lr" lit_1_15 lit_5em5).bind fun c =>
  (scaleClampField c "text_encoder_lr" lit_1_15 lit_2_5em6).bind fun c =>
  let c := dictSet c "noise_offset" (.num lit_0_045)
  let c := dictSet c "lr_scheduler" (.str "cosine")
  (pyNumD c "lr_warmup_steps" (Dy.ofInt 120)).bind fun w =>
  let c := dictSet c "lr_warmup_steps" (.num (Dy.add w (Dy.ofInt 30)))
  let c := dictSet c "max_data_loader_n_workers" (.num (Dy.ofInt 8))
  some c

/-- Lines 14–62 of the source — the transformation applied to one model's
tier table (`model_config`), i.e. the spec's `augment`:

* nothing happens unless the table has an `xs` key (line 14);
* a table that already has both `xxs` and `xxl` is returned as is
  (lines 16–17);
* otherwise `xxs` is derived from a non-empty `xs` and prepended
  (lines 19, 23–44), and `xxl` is derived from a non-empty `xl` and
  assigned under the `"xxl"` key (lines 20, 47–62).

`none` models a `TypeError` raised by the derivation arithmetic. -/
def augment (model_config : ConfigTable) : Option ConfigTable :=
  if dictMem model_config "xs" then
    if dictMem model_config "xxs" && dictMem model_config "xxl" then
      some model_config
    else
      (if (dictGetD model_config "xs" []).isEmpty then some model_config
       else
        (deriveXXS (dictGetD model_config "xs" [])).map
          (fun d => dictPrepend "xxs" d model_config)).bind fun mc1 =>
        if (dictGetD model_config "xl" []).isEmpty then some mc1
        else
          (deriveXXL (dictGetD model_config "xl" [])).map
            (fun d => dictSet mc1 "xxl" d)
  else some model_config

/-- Lines 13–67 of the source, `add_enhanced_tiers`, on the `data`
mapping of a registry: every model entry is transformed by `augment`
independently (the loop re-assigns each existing key in place, which
neither changes the iteration order nor the set of keys). -/
def add_enhanced_tiers : ModelRegistry → Option ModelRegistry
  | [] => some []
  | p :: t =>
    (augment p.2).bind fun t2 =>
      (add_enhanced_tiers t).bind fun rest => some ((p.1, t2) :: rest)

/-- Value held by the caller's `config_data` object after
`add_enhanced_tiers` returns: the function assigns the augmented tables
into `config_data["data"]` in place (line 65) and returns the very same
object (line 67), so the argument's post-call value coincides with the
returned value. -/
def add_enhanced_tiers_inputAfter (config_data : ModelRegistry) :
    Option ModelRegistry :=
  add_enhanced_tiers config_data

/-- Python `==` on stored values: numbers compare numerically, strings
and lists structurally. -/
def pvBeq : PValue → PValue → Bool
  | .num x, .num y => Dy.beq x y
  | .str s, .str t => s == t
  | .strList l, .strList m => l == m
  | _, _ => false

/-- Python `==` on dictionaries: same keys, `pvBeq`-equal values (order
is irrelevant to `dict.__eq__`). -/
def tierBeq (d₁ d₂ : TierConfig) : Bool :=
  d₁.all (fun p => match dictGet? d₂ p.1 with
    | some v => pvBeq p.2 v
    | none => false) &&
  d₂.all (fun p => match dictGet? d₁ p.1 with
    | some v => pvBeq p.2 v
    | none => false)

/-! ### Concrete fixtures used by witnesses and counterexamples -/

/-- A one-field `xs` tier. -/
def xsSmall : TierConfig := [("max_train_epochs", .num (Dy.ofInt 38))]

/-- `deriveXXS xsSmall` written out. -/
def xxsSmall : TierConfig :=
  [("max_train_epochs", .num (Dy.ofInt 45)),
   ("train_batch_size", .num (Dy.ofInt 2)),
   ("gradient_accumulation_steps", .num (Dy.ofInt 4)),
   ("noise_offset", .num lit_0_015),
   ("lr_scheduler", .str "constant_with_warmup"),
   ("max_data_loader_n_workers", .num (Dy.ofInt 2))]

/-- A one-field `xl` tier (`max_train_epochs = 20`). -/
def xlW : TierConfig := [("max_train_epochs", .num (Dy.ofInt 20))]

/-- `deriveXXL xlW` written out (`20 − 3 = 17` epochs, defaults for the
rest). -/
def xxlW : TierConfig :=
  [("max_train_epochs", .num (Dy.ofInt 17)),
   ("train_batch_size", .num (Dy.ofInt 16)),
   ("gradient_accumulation_steps", .num (Dy.ofInt 1)),
   ("noise_offset", .num lit_0_045),
   ("lr_scheduler", .str "cosine"),
   ("lr_warmup_steps", .num (Dy.ofInt 150)),
   ("max_data_loader_n_workers", .num (Dy.ofInt 8))]

/-- The `xs` input of the spec's concrete scenario (§8). -/
def xsScen : TierConfig :=
  [("max_train_epochs", .num (Dy.ofInt 38)),
   ("unet_lr", .num (flRat 1 10000)),
   ("optimizer_args", .strList ["weight_decay=0.01"])]

/-- The `xxs` output the spec's concrete scenario states, in the spec's
key order (Python `dict` equality ignores order). -/
def xxsScen : TierConfig :=
  [("max_train_epochs", .num (Dy.ofInt 45)),
   ("unet_lr", .num (flRat 8 100000)),
   ("train_batch_size", .num (Dy.ofInt 2)),
   ("gradient_accumulation_steps", .num (Dy.ofInt 4)),
   ("noise_offset", .num lit_0_015),
   ("lr_scheduler", .str "constant_with_warmup"),
   ("max_data_loader_n_workers", .num (Dy.ofInt 2)),
   ("optimizer_args", .strList fixedOptimizerArgs)]

/-- `deriveXXS xsScen` written out in the order the code produces
(updated keys keep their position, new keys append). -/
def xxsScenRaw : TierConfig :=
  [("max_train_epochs", .num (Dy.ofInt 45)),
   ("unet_lr", .num (flRat 8 100000)),
   ("optimizer_args", .strList fixedOptimizerArgs),
   ("train_batch_size", .num (Dy.ofInt 2)),
   ("gradient_accumulation_steps", .num (Dy.ofInt 4)),
   ("noise_offset", .num lit_0_015),
   ("lr_scheduler", .str "constant_with_warmup"),
   ("max_data_loader_n_workers", .num (Dy.ofInt 2))]

/-- An `xl` tier whose `unet_lr` is the double `1e-4`. -/
def xl1em4 : TierConfig := [("unet_lr", .num (flRat 1 10000))]

/-- `deriveXXL xl1em4` written out: the scaled learning rate hits the
`5e-05` ceiling. -/
def xxl1em4 : TierConfig :=
  [("unet_lr", .num lit_5em5),
   ("max_train_epochs", .num (Dy.ofInt 8)),
   ("train_batch_size", .num (Dy.ofInt 16)),
   ("gradient_accumulation_steps", .num (Dy.ofInt 1)),
   ("noise_offset", .num lit_0_045),
   ("lr_scheduler", .str "cosine"),
   ("lr_warmup_steps", .num (Dy.ofInt 150)),
   ("max_data_loader_n_workers", .num (Dy.ofInt 8))]

/-- An `xl` tier whose `unet_lr` is the double `1e-6`. -/
def xl1em6 : TierConfig := [("unet_lr", .num (flRat 1 1000000))]

/-- A table with a non-empty `xl` tier but no `xs` key. -/
def tC1 : ConfigTable := [("xl", xlW)]

/-- A table with `xs` present and `xl` nonempty. -/
def tC1T : ConfigTable := [("xs", xsSmall), ("xl", xlW)]

/-- A registry with one model whose table has only an `xs` tier. -/
def regC2 : ModelRegistry := [("m1", [("xs", xsSmall)])]

/-- Registry `regC2` after augmentation. -/
def regC2' : ModelRegistry := [("m1", [("xxs", xxsSmall), ("xs", xsSmall)])]

/-- Table of the single model of `regC2`. -/
def tC3 : ConfigTable := [("xs", xsSmall)]

/-- `augment tC3` written out. -/
def tC3' : ConfigTable := [("xxs", xxsSmall), ("xs", xsSmall)]

/-- A fresh table with tiers before, between and after the sources. -/
def tC4 : ConfigTable := [("xs", xsSmall), ("s", [("k", .str "v")]), ("xl", xlW)]

/-- A table with a present `xs` and an explicitly empty `xl` tier. -/
def tC9 : ConfigTable := [("xs", xsSmall), ("xl", [])]

/-- `augment tC9` written out: `xxs` prepended, no `xxl`. -/
def tC9' : ConfigTable := [("xxs", xxsSmall), ("xs", xsSmall), ("xl", [])]

/-- A table with no `xs` key at all. -/
def uC9 : ConfigTable := [("s", [("k", .str "v")])]

/-- A table with no `xs` key but with a pre-existing `xxs` entry. -/
def tC9x : ConfigTable := [("xxs", ([] : TierConfig))]

/-- The value of a pre-existing `xxl` entry, before overwrite. -/
def oldXXL : TierConfig := [("note", .str "old")]

/-- The value of a pre-existing `xxs` entry, kept by the merge. -/
def keepXXS : TierConfig := [("note", .str "keep")]

/-- A table with a pre-existing `xxl` (first), `xs` and non-empty `xl`:
derivation re-runs and overwrites `xxl` in place. -/
def sC10 : ConfigTable := [("xxl", oldXXL), ("xs", xsSmall), ("xl", xlW)]

/-- A table with a pre-existing `xxs` in the middle and no `xxl`. -/
def tC10 : ConfigTable :=
  [("mid", [("k", .str "v")]), ("xxs", keepXXS), ("xs", xsSmall)]

/-- `augment tC10` written out: the old `xxs` value moves to the front;
the freshly derived `xxs` is discarded by the duplicate-key merge. -/
def tC10' : ConfigTable :=
  [("xxs", keepXXS), ("mid", [("k", .str "v")]), ("xs", xsSmall)]

/-! ### Boolean structural equality (fast to evaluate) with soundness
bridges to propositional equality -/

/-- Structural equality of dyadic numbers as a `Bool`. -/
def dyBeqS (x y : Dy) : Bool := x.n == y.n && x.d == y.d

/-- Structural equality of stored values as a `Bool`. -/
def pvBeqS : PValue → PValue → Bool
  | .num x, .num y => dyBeqS x y
  | .str s, .str t => s == t
  | .strList l, .strList m => l == m
  | _, _ => false

/-- Structural equality of tier dictionaries as a `Bool`. -/
def tcBeqS : TierConfig → TierConfig → Bool
  | [], [] => true
  | p :: t, q :: u => p.1 == q.1 && pvBeqS p.2 q.2 && tcBeqS t u
  | _, _ => false

/-- Structural equality of tier tables as a `Bool`. -/
def ctBeqS : ConfigTable → ConfigTable → Bool
  | [], [] => true
  | p :: t, q :: u => p.1 == q.1 && tcBeqS p.2 q.2 && ctBeqS t u
  | _, _ => false

/-- Structural equality of registries as a `Bool`. -/
def regBeqS : ModelRegistry → ModelRegistry → Bool
  | [], [] => true
  | p :: t, q :: u => p.1 == q.1 && ctBeqS p.2 q.2 && regBeqS t u
  | _, _ => false

/-- Structural equality on `Option` from one on the contents. -/
def optBeqS {α : Type} (f : α → α → Bool) : Option α → Option α → Bool
  | none, none => true
  | some a, some b => f a b
  | _, _ => false

/-! ### Additional fixtures for the optimizer-args claims -/

/-- An `xs` tier holding only an `optimizer_args` list that mentions
`weight_decay`. -/
def xsOptC5 : TierConfig :=
  [("optimizer_args", PValue.strList ["weight_decay=0.01"])]

/-- `deriveXXS xsOptC5` written out: `optimizer_args` replaced in place,
the overridden fields appended. -/
def xxsOptRaw : TierConfig :=
  [("optimizer_args", .strList fixedOptimizerArgs),
   ("max_train_epochs", .num (Dy.ofInt 45)),
   ("train_batch_size", .num (Dy.ofInt 2)),
   ("gradient_accumulation_steps", .num (Dy.ofInt 4)),
   ("noise_offset", .num lit_0_015),
   ("lr_scheduler", .str "constant_with_warmup"),
   ("max_data_loader_n_workers", .num (Dy.ofInt 2))]

-- Sanity checks of the rounding model against the exact values of the
-- corresponding binary64 constants.
example : lit_0_8 = ⟨3602879701896397, 52⟩ := by decide
example : lit_1_15 = ⟨2589569785738035, 51⟩ := by decide
example : lit_5em5 = ⟨7378697629483821, 67⟩ := by decide
example : lit_2_5em6 = ⟨5902958103587057, 71⟩ := by decide
example : lit_0_015 = ⟨1080863910568919, 56⟩ := by decide
example : lit_0_045 = ⟨3242591731706757, 56⟩ := by decide
example : flRat 1 1000000 = ⟨4722366482869645, 72⟩ := by decide
example : flRat 1 10000 = ⟨7378697629483821, 66⟩ := by decide
example : flRat 8 100000 = ⟨5902958103587057, 66⟩ := by decide
example : flRat 115 100000000 = ⟨1357680363825023, 70⟩ := by decide
example : pyMulF (flRat 1 1000000) lit_1_15 = ⟨5430721455300091, 72⟩ := by decide
example : pyMulF (flRat 1 10000) lit_0_8 = ⟨5902958103587057, 66⟩ := by decide

section DictLemmas

variable {α : Type}

theorem dictMem_eq_isSome (d : List (String × α)) (k : String) :
    dictMem d k = (dictGet? d k).isSome := by
  induction d with
  | nil => rfl
  | cons p t ih =>
    by_cases h : p.1 = k <;> simp [dictMem, dictGet?, h, ih]

theorem dictGet?_eq_none (d : List (String × α)) (k : String)
    (h : dictMem d k = false) : dictGet? d k = none := by
  have hs := dictMem_eq_isSome d k
  rw [h] at hs
  exact Option.not_isSome_iff_eq_none.mp (by simp [← hs])

theorem dictGet?_set_self (d : List (String × α)) (k : String) (v : α) :
    dictGet? (dictSet d k v) k = some v := by
  induction d with
  | nil => simp [dictSet, dictGet?]
  | cons p t ih =>
    by_cases h : p.1 = k <;> simp [dictSet, dictGet?, h, ih]

theorem dictGet?_set_ne (d : List (String × α)) (k k' : String) (v : α)
    (h : k' ≠ k) : dictGet? (dictSet d k v) k' = dictGet? d k' := by
  have hk : ¬(k = k') := fun hk => h hk.symm
  induction d with
  | nil => simp [dictSet, dictGet?, hk]
  | cons p t ih =>
    by_cases hp : p.1 = k
    · have hp' : ¬(p.1 = k') := by rw [hp]; exact hk
      simp [dictSet, dictGet?, hp, hp', hk]
    · by_cases hp' : p.1 = k' <;> simp [dictSet, dictGet?, hp, hp', h, ih]

theorem dictMem_set (d : List (String × α)) (k k' : String) (v : α) :
    dictMem (dictSet d k v) k' = (k' == k || dictMem d k') := by
  by_cases h : k' = k
  · subst h
    rw [dictMem_eq_isSome, dictGet?_set_self]
    simp
  · rw [dictMem_eq_isSome, dictGet?_set_ne d k k' v h, ← dictMem_eq_isSome]
    simp [h]

theorem dictSet_not_mem (d : List (String × α)) (k : String) (v : α)
    (h : dictMem d k = false) : dictSet d k v = d ++ [(k, v)] := by
  induction d with
  | nil => rfl
  | cons p t ih =>
    rw [dictMem] at h
    rcases Bool.or_eq_false_iff.mp h with ⟨h1, h2⟩
    simp only [dictSet, if_neg (by simpa using h1), List.cons_append,
      List.cons.injEq, true_and]
    exact ih h2

theorem dictSet_set_self (d : List (String × α)) (k : String) (v : α) :
    dictSet (dictSet d k v) k v = dictSet d k v := by
  induction d with
  | nil => simp [dictSet]
  | cons p t ih =>
    by_cases h : p.1 = k <;> simp [dictSet, h, ih]

theorem dictRemove_not_mem (d : List (String × α)) (k : String)
    (h : dictMem d k = false) : dictRemove d k = d := by
  induction d with
  | nil => rfl
  | cons p t ih =>
    rw [dictMem] at h
    rcases Bool.or_eq_false_iff.mp h with ⟨h1, h2⟩
    simp only [dictRemove, if_neg (by simpa using h1)]
    rw [ih h2]

theorem dictMem_remove_self (d : List (String × α)) (k : String) :
    dictMem (dictRemove d k) k = false := by
  induction d with
  | nil => rfl
  | cons p t ih =>
    by_cases h : p.1 = k <;> simp [dictRemove, dictMem, h, ih]

theorem dictGet?_remove_ne (d : List (String × α)) (k k' : String)
    (h : k' ≠ k) : dictGet? (dictRemove d k) k' = dictGet? d k' := by
  have hk : ¬(k = k') := fun hk => h hk.symm
  induction d with
  | nil => rfl
  | cons p t ih =>
    by_cases hp : p.1 = k
    · have hp' : ¬(p.1 = k') := by rw [hp]; exact hk
      simp [dictRemove, dictGet?, hp, hp', hk, ih]
    · by_cases hp' : p.1 = k' <;> simp [dictRemove, dictGet?, hp, hp', h, ih]

theorem dictPrepend_not_mem (d : List (String × α)) (k : String) (v : α)
    (h : dictMem d k = false) : dictPrepend k v d = (k, v) :: d := by
  rw [dictPrepend, h]
  simp

theorem dictGet?_prepend_self (d : List (String × α)) (k : String) (v : α) :
    dictGet? (dictPrepend k v d) k = some (dictGetD d k v) := by
  rw [dictPrepend]
  by_cases h : dictMem d k
  · simp [h, dictGet?]
  · have h' : dictMem d k = false := Bool.eq_false_iff.mpr h
    rw [h']
    simp [dictGet?, dictGetD, dictGet?_eq_none d k h']

theorem dictGet?_prepend_ne (d : List (String × α)) (k k' : String) (v : α)
    (h : k' ≠ k) : dictGet? (dictPrepend k v d) k' = dictGet? d k' := by
  rw [dictPrepend]
  have hk : ¬((k : String) = k') := fun hk => h hk.symm
  by_cases hm : dictMem d k
  · simp only [hm, if_true, dictGet?, hk, if_false]
    exact dictGet?_remove_ne d k k' h
  · have h' : dictMem d k = false := Bool.eq_false_iff.mpr hm
    rw [h']
    simp [dictGet?, hk]

theorem dictMem_prepend (d : List (String × α)) (k k' : String) (v : α) :
    dictMem (dictPrepend k v d) k' = (k' == k || dictMem d k') := by
  by_cases h : k' = k
  · subst h
    rw [dictMem_eq_isSome, dictGet?_prepend_self]
    simp
  · rw [dictMem_eq_isSome, dictGet?_prepend_ne d k k' v h, ← dictMem_eq_isSome]
    simp [h]

theorem dictPrepend_prepend (d : List (String × α)) (k : String) (v v' : α) :
    dictPrepend k v' (dictPrepend k v d) = dictPrepend k v d := by
  by_cases h : dictMem d k
  · have e1 : dictPrepend k v d = (k, dictGetD d k v) :: dictRemove d k := by
      rw [dictPrepend, if_pos h]
    rw [e1, dictPrepend]
    have hmem : dictMem ((k, dictGetD d k v) :: dictRemove d k) k = true := by
      simp [dictMem]
    rw [if_pos hmem]
    congr 1
    · simp [dictGetD, dictGet?]
    · simp [dictRemove, dictRemove_not_mem _ _ (dictMem_remove_self d k)]
  · have h' : dictMem d k = false := Bool.eq_false_iff.mpr h
    rw [dictPrepend_not_mem d k v h', dictPrepend]
    have hmem : dictMem ((k, v) :: d) k = true := by simp [dictMem]
    rw [if_pos hmem]
    congr 1
    · simp [dictGetD, dictGet?]
    · simp [dictRemove, dictRemove_not_mem d k h']

end DictLemmas

theorem scaleField_char (c : TierConfig) (k : String) (f : Dy)
    (c' : TierConfig) (h : scaleField c k f = some c') :
    (∀ x, dictGet? c k = some (.num x) →
      dictGet? c' k = some (.num (pyMulF x f))) ∧
    (dictGet? c k = none → dictGet? c' k = none) ∧
    (∀ k', k' ≠ k → dictGet? c' k' = dictGet? c k') := by
  rw [scaleField] at h
  cases hg : dictGet? c k with
  | none =>
    rw [hg] at h
    injection h with h'
    subst h'
    refine ⟨?_, ?_, ?_⟩
    · intro x hx
      cases hx
    · intro _
      exact hg
    · intro k' _
      rfl
  | some v =>
    rw [hg] at h
    cases v with
    | num x =>
      injection h with h'
      subst h'
      refine ⟨?_, ?_, ?_⟩
      · intro y hy
        injection hy with hv
        injection hv with hx2
        subst hx2
        exact dictGet?_set_self c k _
      · intro hn
        cases hn
      · intro k' hk'
        exact dictGet?_set_ne c k k' _ hk'
    | str s => cases h
    | strList l => cases h

theorem scaleClampField_char (c : TierConfig) (k : String) (f cap : Dy)
    (c' : TierConfig) (h : scaleClampField c k f cap = some c') :
    (∀ x, dictGet? c k = some (.num x) →
      dictGet? c' k = some (.num (Dy.pyMin cap (pyMulF x f)))) ∧
    (dictGet? c k = none → dictGet? c' k = none) ∧
    (∀ k', k' ≠ k → dictGet? c' k' = dictGet? c k') := by
  rw [scaleClampField] at h
  cases hg : dictGet? c k with
  | none =>
    rw [hg] at h
    injection h with h'
    subst h'
    refine ⟨?_, ?_, ?_⟩
    · intro x hx
      cases hx
    · intro _
      exact hg
    · intro k' _
      rfl
  | some v =>
    rw [hg] at h
    cases v with
    | num x =>
      injection h with h'
      subst h'
      refine ⟨?_, ?_, ?_⟩
      · intro y hy
        injection hy with hv
        injection hv with hx2
        subst hx2
        exact dictGet?_set_self c k _
      · intro hn
        cases hn
      · intro k' hk'
        exact dictGet?_set_ne c k k' _ hk'
    | str s => cases h
    | strList l => cases h

theorem pyNumD_congr (c c' : TierConfig) (k : String) (v₀ : Dy)
    (h : dictGet? c' k = dictGet? c k) :
    pyNumD c' k v₀ = pyNumD c k v₀ := by
  rw [pyNumD, pyNumD, h]

theorem dictGet?_set2_ne {α : Type} (d : List (String × α)) (k1 k2 k : String)
    (v1 : α) (v2 : α) (h1 : k ≠ k1) (h2 : k ≠ k2) :
    dictGet? (dictSet (dictSet d k1 v1) k2 v2) k = dictGet? d k := by
  rw [dictGet?_set_ne _ _ _ _ h2, dictGet?_set_ne _ _ _ _ h1]

theorem dictGet?_set3_ne {α : Type} (d : List (String × α))
    (k1 k2 k3 k : String) (v1 v2 v3 : α)
    (h1 : k ≠ k1) (h2 : k ≠ k2) (h3 : k ≠ k3) :
    dictGet? (dictSet (dictSet (dictSet d k1 v1) k2 v2) k3 v3) k
      = dictGet? d k := by
  rw [dictGet?_set_ne _ _ _ _ h3, dictGet?_set_ne _ _ _ _ h2,
    dictGet?_set_ne _ _ _ _ h1]

/-- Field-level characterization of the `xxs` derivation (lines 25–41):
given the numeric read of `max_train_epochs` (line 25) and a successful
run, every field of the result is determined — the overridden fields get
the computed values, `unet_lr`/`text_encoder_lr` are scaled when present
and stay absent when absent, `optimizer_args` is replaced exactly when
the string rendering of its value mentions `weight_decay`, and every
field the block never writes is carried over from `xs` unchanged. -/
theorem deriveXXS_char (c : TierConfig) (e : Dy)
    (he : pyNumD c "max_train_epochs" (Dy.ofInt 38) = some e)
    (d : TierConfig) (hd : deriveXXS c = some d) :
    dictGet? d "max_train_epochs" = some (.num (Dy.add e (Dy.ofInt 7))) ∧
    dictGet? d "train_batch_size" = some (.num (Dy.ofInt 2)) ∧
    dictGet? d "gradient_accumulation_steps" = some (.num (Dy.ofInt 4)) ∧
    (∀ x, dictGet? c "unet_lr" = some (.num x) →
      dictGet? d "unet_lr" = some (.num (pyMulF x lit_0_8))) ∧
    (dictGet? c "unet_lr" = none → dictGet? d "unet_lr" = none) ∧
    (∀ x, dictGet? c "text_encoder_lr" = some (.num x) →
      dictGet? d "text_encoder_lr" = some (.num (pyMulF x lit_0_8))) ∧
    (dictGet? c "text_encoder_lr" = none →
      dictGet? d "text_encoder_lr" = none) ∧
    dictGet? d "noise_offset" = some (.num lit_0_015) ∧
    dictGet? d "lr_scheduler" = some (.str "constant_with_warmup") ∧
    dictGet? d "max_data_loader_n_workers" = some (.num (Dy.ofInt 2)) ∧
    (containsWD (pyStr (dictGetD c "optimizer_args" (.strList []))) = true →
      dictGet? d "optimizer_args" = some (.strList fixedOptimizerArgs)) ∧
    (containsWD (pyStr (dictGetD c "optimizer_args" (.strList []))) = false →
      dictGet? d "optimizer_args" = dictGet? c "optimizer_args") ∧
    (∀ k, ¬ (k ∈ xxsTouched) → dictGet? d k = dictGet? c k) := by
  rw [deriveXXS, he] at hd
  simp only [Option.some_bind] at hd
  obtain ⟨c4, hc4, hd⟩ := Option.bind_eq_some.mp hd
  obtain ⟨c5, hc5, hd⟩ := Option.bind_eq_some.mp hd
  injection hd with hd'
  obtain ⟨s4a, s4b, s4c⟩ := scaleField_char _ _ _ _ hc4
  obtain ⟨s5a, s5b, s5c⟩ := scaleField_char _ _ _ _ hc5
  subst hd'
  -- the value of `optimizer_args` read on line 35 is the one of `xs`
  have hopt :
      dictGet? (dictSet (dictSet (dictSet c5 "noise_offset"
          (.num lit_0_015)) "lr_scheduler" (.str "constant_with_warmup"))
          "max_data_loader_n_workers" (.num (Dy.ofInt 2)))
        "optimizer_args" = dictGet? c "optimizer_args" := by
    rw [dictGet?_set3_ne _ _ _ _ _ _ _ _ (by decide) (by decide) (by decide),
      s5c _ (by decide), s4c _ (by decide),
      dictGet?_set3_ne _ _ _ _ _ _ _ _ (by decide) (by decide) (by decide)]
  have hgd : dictGetD (dictSet (dictSet (dictSet c5 "noise_offset"
          (.num lit_0_015)) "lr_scheduler" (.str "constant_with_warmup"))
          "max_data_loader_n_workers" (.num (Dy.ofInt 2)))
        "optimizer_args" (PValue.strList [])
      = dictGetD c "optimizer_args" (PValue.strList []) := by
    rw [dictGetD, dictGetD, hopt]
  rw [hgd]
  -- per-field values at the stage before the `optimizer_args` rewrite
  have gmte : dictGet? (dictSet (dictSet (dictSet c5 "noise_offset"
          (.num lit_0_015)) "lr_scheduler" (.str "constant_with_warmup"))
          "max_data_loader_n_workers" (.num (Dy.ofInt 2)))
        "max_train_epochs" = some (.num (Dy.add e (Dy.ofInt 7))) := by
    rw [dictGet?_set3_ne _ _ _ _ _ _ _ _ (by decide) (by decide) (by decide),
      s5c _ (by decide), s4c _ (by decide),
      dictGet?_set2_ne _ _ _ _ _ _ (by decide) (by decide),
      dictGet?_set_self]
  have gtbs : dictGet? (dictSet (dictSet (dictSet c5 "noise_offset"
          (.num lit_0_015)) "lr_scheduler" (.str "constant_with_warmup"))
          "max_data_loader_n_workers" (.num (Dy.ofInt 2)))
        "train_batch_size" = some (.num (Dy.ofInt 2)) := by
    rw [dictGet?_set3_ne _ _ _ _ _ _ _ _ (by decide) (by decide) (by decide),
      s5c _ (by decide), s4c _ (by decide),
      dictGet?_set_ne _ _ _ _ (by decide), dictGet?_set_self]
  have ggas : dictGet? (dictSet (dictSet (dictSet c5 "noise_offset"
          (.num lit_0_015)) "lr_scheduler" (.str "constant_with_warmup"))
          "max_data_loader_n_workers" (.num (Dy.ofInt 2)))
        "gradient_accumulation_steps" = some (.num (Dy.ofInt 4)) := by
    rw [dictGet?_set3_ne _ _ _ _ _ _ _ _ (by decide) (by decide) (by decide),
      s5c _ (by decide), s4c _ (by decide), dictGet?_set_self]
  have gunet : ∀ x, dictGet? c "unet_lr" = some (.num x) →
      dictGet? (dictSet (dictSet (dictSet c5 "noise_offset"
          (.num lit_0_015)) "lr_scheduler" (.str "constant_with_warmup"))
          "max_data_loader_n_workers" (.num (Dy.ofInt 2)))
        "unet_lr" = some (.num (pyMulF x lit_0_8)) := by
    intro x hx
    rw [dictGet?_set3_ne _ _ _ _ _ _ _ _ (by decide) (by decide) (by decide),
      s5c _ (by decide)]
    exact s4a x (by
      rw [dictGet?_set3_ne _ _ _ _ _ _ _ _ (by decide) (by decide) (by decide)]
      exact hx)
  have gunetn : dictGet? c "unet_lr" = none →
      dictGet? (dictSet (dictSet (dictSet c5 "noise_offset"
          (.num lit_0_015)) "lr_scheduler" (.str "constant_with_warmup"))
          "max_data_loader_n_workers" (.num (Dy.ofInt 2)))
        "unet_lr" = none := by
    intro hx
    rw [dictGet?_set3_ne _ _ _ _ _ _ _ _ (by decide) (by decide) (by decide),
      s5c _ (by decide)]
    exact s4b (by
      rw [dictGet?_set3_ne _ _ _ _ _ _ _ _ (by decide) (by decide) (by decide)]
      exact hx)
  have gtext : ∀ x, dictGet? c "text_encoder_lr" = some (.num x) →
      dictGet? (dictSet (dictSet (dictSet c5 "noise_offset"
          (.num lit_0_015)) "lr_scheduler" (.str "constant_with_warmup"))
          "max_data_loader_n_workers" (.num (Dy.ofInt 2)))
        "text_encoder_lr" = some (.num (pyMulF x lit_0_8)) := by
    intro x hx
    rw [dictGet?_set3_ne _ _ _ _ _ _ _ _ (by decide) (by decide) (by decide)]
    exact s5a x (by
      rw [s4c _ (by decide),
        dictGet?_set3_ne _ _ _ _ _ _ _ _ (by decide) (by decide) (by decide)]
      exact hx)
  have gtextn : dictGet? c "text_encoder_lr" = none →
      dictGet? (dictSet (dictSet (dictSet c5 "noise_offset"
          (.num lit_0_015)) "lr_scheduler" (.str "constant_with_warmup"))
          "max_data_loader_n_workers" (.num (Dy.ofInt 2)))
        "text_encoder_lr" = none := by
    intro hx
    rw [dictGet?_set3_ne _ _ _ _ _ _ _ _ (by decide) (by decide) (by decide)]
    exact s5b (by
      rw [s4c _ (by decide),
        dictGet?_set3_ne _ _ _ _ _ _ _ _ (by decide) (by decide) (by decide)]
      exact hx)
  have gnoise : dictGet? (dictSet (dictSet (dictSet c5 "noise_offset"
          (.num lit_0_015)) "lr_scheduler" (.str "constant_with_warmup"))
          "max_data_loader_n_workers" (.num (Dy.ofInt 2)))
        "noise_offset" = some (.num lit_0_015) := by
    rw [dictGet?_set2_ne _ _ _ _ _ _ (by decide) (by decide), dictGet?_set_self]
  have gsched : dictGet? (dictSet (dictSet (dictSet c5 "noise_offset"
          (.num lit_0_015)) "lr_scheduler" (.str "constant_with_warmup"))
          "max_data_loader_n_workers" (.num (Dy.ofInt 2)))
        "lr_scheduler" = some (.str "constant_with_warmup") := by
    rw [dictGet?_set_ne _ _ _ _ (by decide), dictGet?_set_self]
  have gwork : dictGet? (dictSet (dictSet (dictSet c5 "noise_offset"
          (.num lit_0_015)) "lr_scheduler" (.str "constant_with_warmup"))
          "max_data_loader_n_workers" (.num (Dy.ofInt 2)))
        "max_data_loader_n_workers" = some (.num (Dy.ofInt 2)) :=
    dictGet?_set_self _ _ _
  have gother : ∀ k, ¬ (k ∈ xxsTouched) →
      dictGet? (dictSet (dictSet (dictSet c5 "noise_offset"
          (.num lit_0_015)) "lr_scheduler" (.str "constant_with_warmup"))
          "max_data_loader_n_workers" (.num (Dy.ofInt 2)))
        k = dictGet? c k := by
    intro k hk
    simp only [xxsTouched, List.mem_cons, List.not_mem_nil, or_false,
      not_or] at hk
    obtain ⟨n1, n2, n3, n4, n5, n6, n7, n8, n9⟩ := hk
    rw [dictGet?_set3_ne _ _ _ _ _ _ _ _ n6 n7 n8, s5c _ n5, s4c _ n4,
      dictGet?_set3_ne _ _ _ _ _ _ _ _ n1 n2 n3]
  by_cases hw :
      containsWD (pyStr (dictGetD c "optimizer_args" (PValue.strList []))) = true
  · rw [if_pos hw]
    refine ⟨?_, ?_, ?_, ?_, ?_, ?_, ?_, ?_, ?_, ?_, ?_, ?_, ?_⟩
    · rw [dictGet?_set_ne _ _ _ _ (by decide)]; exact gmte
    · rw [dictGet?_set_ne _ _ _ _ (by decide)]; exact gtbs
    · rw [dictGet?_set_ne _ _ _ _ (by decide)]; exact ggas
    · intro x hx
      rw [dictGet?_set_ne _ _ _ _ (by decide)]; exact gunet x hx
    · intro hx
      rw [dictGet?_set_ne _ _ _ _ (by decide)]; exact gunetn hx
    · intro x hx
      rw [dictGet?_set_ne _ _ _ _ (by decide)]; exact gtext x hx
    · intro hx
      rw [dictGet?_set_ne _ _ _ _ (by decide)]; exact gtextn hx
    · rw [dictGet?_set_ne _ _ _ _ (by decide)]; exact gnoise
    · rw [dictGet?_set_ne _ _ _ _ (by decide)]; exact gsched
    · rw [dictGet?_set_ne _ _ _ _ (by decide)]; exact gwork
    · intro _
      exact dictGet?_set_self _ _ _
    · intro hcontra
      rw [hw] at hcontra
      cases hcontra
    · intro k hk
      have hk9 : k ≠ "optimizer_args" := by
        intro hkk
        apply hk
        rw [hkk, xxsTouched]
        simp
      rw [dictGet?_set_ne _ _ _ _ hk9]
      exact gother k hk
  · rw [if_neg hw]
    have hw' :
        containsWD (pyStr (dictGetD c "optimizer_args" (PValue.strList [])))
          = false := Bool.not_eq_true _ ▸ Bool.eq_false_iff.mpr hw
    refine ⟨gmte, gtbs, ggas, gunet, gunetn, gtext, gtextn, gnoise, gsched,
      gwork, ?_, ?_, gother⟩
    · intro hcontra
      rw [hcontra] at hw
      exact (hw rfl).elim
    · intro _
      exact hopt

/-- Field-level characterization of the `xxl` derivation (lines 49–59):
given the numeric reads of `max_train_epochs` (line 49),
`train_batch_size` (line 50) and `lr_warmup_steps` (line 58) and a
successful run, every field of the result is determined — overridden
fields get the computed (floored/capped) values, the learning rates are
scaled and clamped when present and stay absent when absent, and every
field the block never writes is carried over from `xl` unchanged. -/
theorem deriveXXL_char (c : TierConfig) (e b w : Dy)
    (he : pyNumD c "max_train_epochs" (Dy.ofInt 11) = some e)
    (hb : pyNumD c "train_batch_size" (Dy.ofInt 12) = some b)
    (hww : pyNumD c "lr_warmup_steps" (Dy.ofInt 120) = some w)
    (d : TierConfig) (hd : deriveXXL c = some d) :
    dictGet? d "max_train_epochs"
      = some (.num (Dy.pyMax (Dy.ofInt 8) (Dy.sub e (Dy.ofInt 3)))) ∧
    dictGet? d "train_batch_size"
      = some (.num (Dy.pyMin (Dy.ofInt 16) (Dy.add b (Dy.ofInt 4)))) ∧
    dictGet? d "gradient_accumulation_steps" = some (.num (Dy.ofInt 1)) ∧
    (∀ x, dictGet? c "unet_lr" = some (.num x) →
      dictGet? d "unet_lr"
        = some (.num (Dy.pyMin lit_5em5 (pyMulF x lit_1_15)))) ∧
    (dictGet? c "unet_lr" = none → dictGet? d "unet_lr" = none) ∧
    (∀ x, dictGet? c "text_encoder_lr" = some (.num x) →
      dictGet? d "text_encoder_lr"
        = some (.num (Dy.pyMin lit_2_5em6 (pyMulF x lit_1_15)))) ∧
    (dictGet? c "text_encoder_lr" = none →
      dictGet? d "text_encoder_lr" = none) ∧
    dictGet? d "noise_offset" = some (.num lit_0_045) ∧
    dictGet? d "lr_scheduler" = some (.str "cosine") ∧
    dictGet? d "lr_warmup_steps" = some (.num (Dy.add w (Dy.ofInt 30))) ∧
    dictGet? d "max_data_loader_n_workers" = some (.num (Dy.ofInt 8)) ∧
    (∀ k, ¬ (k ∈ xxlTouched) → dictGet? d k = dictGet? c k) := by
  rw [deriveXXL, he] at hd
  simp only [Option.some_bind] at hd
  have hb1 : pyNumD (dictSet c "max_train_epochs"
      (.num (Dy.pyMax (Dy.ofInt 8) (Dy.sub e (Dy.ofInt 3)))))
      "train_batch_size" (Dy.ofInt 12) = some b := by
    rw [pyNumD_congr _ _ _ _ (dictGet?_set_ne _ _ _ _ (by decide))]
    exact hb
  rw [hb1] at hd
  simp only [Option.some_bind] at hd
  obtain ⟨c4, hc4, hd⟩ := Option.bind_eq_some.mp hd
  obtain ⟨c5, hc5, hd⟩ := Option.bind_eq_some.mp hd
  obtain ⟨s4a, s4b, s4c⟩ := scaleClampField_char _ _ _ _ _ hc4
  obtain ⟨s5a, s5b, s5c⟩ := scaleClampField_char _ _ _ _ _ hc5
  -- the `lr_warmup_steps` read on line 58 sees the `xl` value
  have hw7 : pyNumD (dictSet (dictSet c5 "noise_offset" (.num lit_0_045))
      "lr_scheduler" (.str "cosine")) "lr_warmup_steps" (Dy.ofInt 120)
      = some w := by
    rw [pyNumD_congr _ _ _ _
      (dictGet?_set2_ne _ _ _ _ _ _ (by decide) (by decide))]
    rw [pyNumD_congr _ _ _ _ (s5c _ (by decide))]
    rw [pyNumD_congr _ _ _ _ (s4c _ (by decide))]
    rw [pyNumD_congr _ _ _ _
      (dictGet?_set3_ne _ _ _ _ _ _ _ _ (by decide) (by decide) (by decide))]
    exact hww
  rw [hw7] at hd
  simp only [Option.some_bind] at hd
  injection hd with hd'
  subst hd'
  refine ⟨?_, ?_, ?_, ?_, ?_, ?_, ?_, ?_, ?_, ?_, ?_, ?_⟩
  · rw [dictGet?_set2_ne _ _ _ _ _ _ (by decide) (by decide),
      dictGet?_set2_ne _ _ _ _ _ _ (by decide) (by decide),
      s5c _ (by decide), s4c _ (by decide),
      dictGet?_set2_ne _ _ _ _ _ _ (by decide) (by decide),
      dictGet?_set_self]
  · rw [dictGet?_set2_ne _ _ _ _ _ _ (by decide) (by decide),
      dictGet?_set2_ne _ _ _ _ _ _ (by decide) (by decide),
      s5c _ (by decide), s4c _ (by decide),
      dictGet?_set_ne _ _ _ _ (by decide), dictGet?_set_self]
  · rw [dictGet?_set2_ne _ _ _ _ _ _ (by decide) (by decide),
      dictGet?_set2_ne _ _ _ _ _ _ (by decide) (by decide),
      s5c _ (by decide), s4c _ (by decide), dictGet?_set_self]
  · intro x hx
    rw [dictGet?_set2_ne _ _ _ _ _ _ (by decide) (by decide),
      dictGet?_set2_ne _ _ _ _ _ _ (by decide) (by decide),
      s5c _ (by decide)]
    exact s4a x (by
      rw [dictGet?_set3_ne _ _ _ _ _ _ _ _ (by decide) (by decide) (by decide)]
      exact hx)
  · intro hx
    rw [dictGet?_set2_ne _ _ _ _ _ _ (by decide) (by decide),
      dictGet?_set2_ne _ _ _ _ _ _ (by decide) (by decide),
      s5c _ (by decide)]
    exact s4b (by
      rw [dictGet?_set3_ne _ _ _ _ _ _ _ _ (by decide) (by decide) (by decide)]
      exact hx)
  · intro x hx
    rw [dictGet?_set2_ne _ _ _ _ _ _ (by decide) (by decide),
      dictGet?_set2_ne _ _ _ _ _ _ (by decide) (by decide)]
    exact s5a x (by
      rw [s4c _ (by decide),
        dictGet?_set3_ne _ _ _ _ _ _ _ _ (by decide) (by decide) (by decide)]
      exact hx)
  · intro hx
    rw [dictGet?_set2_ne _ _ _ _ _ _ (by decide) (by decide),
      dictGet?_set2_ne _ _ _ _ _ _ (by decide) (by decide)]
    exact s5b (by
      rw [s4c _ (by decide),
        dictGet?_set3_ne _ _ _ _ _ _ _ _ (by decide) (by decide) (by decide)]
      exact hx)
  · rw [dictGet?_set2_ne _ _ _ _ _ _ (by decide) (by decide),
      dictGet?_set_ne _ _ _ _ (by decide), dictGet?_set_self]
  · rw [dictGet?_set2_ne _ _ _ _ _ _ (by decide) (by decide),
      dictGet?_set_self]
  · rw [dictGet?_set_ne _ _ _ _ (by decide), dictGet?_set_self]
  · exact dictGet?_set_self _ _ _
  · intro k hk
    simp only [xxlTouched, List.mem_cons, List.not_mem_nil, or_false,
      not_or] at hk
    obtain ⟨n1, n2, n3, n4, n5, n6, n7, n8, n9⟩ := hk
    rw [dictGet?_set2_ne _ _ _ _ _ _ n8 n9,
      dictGet?_set2_ne _ _ _ _ _ _ n6 n7, s5c _ n5, s4c _ n4,
      dictGet?_set3_ne _ _ _ _ _ _ _ _ n1 n2 n3]

/-- Line 14: a table without an `xs` key is passed over unchanged. -/
theorem augment_no_xs (T : ConfigTable) (h : dictMem T "xs" = false) :
    augment T = some T := by
  rw [augment, h]
  simp

/-- On a table that has a non-empty `xs` and a non-empty `xl` but
neither derived key, `augment` prepends the derived `xxs`, appends the
derived `xxl`, and keeps everything in between exactly as it was. -/
theorem augment_fresh (T : ConfigTable) (xs0 xl0 dxs dxl : TierConfig)
    (hxs : dictGet? T "xs" = some xs0) (hxsne : xs0.isEmpty = false)
    (hxl : dictGet? T "xl" = some xl0) (hxlne : xl0.isEmpty = false)
    (hxxs : dictMem T "xxs" = false) (hxxl : dictMem T "xxl" = false)
    (hds : deriveXXS xs0 = some dxs) (hdl : deriveXXL xl0 = some dxl) :
    augment T = some (("xxs", dxs) :: (T ++ [("xxl", dxl)])) := by
  have hmem : dictMem T "xs" = true := by
    rw [dictMem_eq_isSome, hxs]
    rfl
  have hboth : (dictMem T "xxs" && dictMem T "xxl") = false := by
    rw [hxxs]
    rfl
  rw [augment, if_pos hmem, hboth]
  simp only [Bool.false_eq_true, if_false]
  rw [dictGetD, hxs, Option.getD_some, dictGetD, hxl, Option.getD_some,
    hxsne, hxlne]
  simp only [Bool.false_eq_true, if_false]
  rw [hds, hdl]
  simp only [Option.map_some', Option.some_bind]
  rw [dictPrepend_not_mem T "xxs" dxs hxxs]
  have hne : ¬(("xxs", dxs).1 = "xxl") := by simp
  have hset : dictSet (("xxs", dxs) :: T) "xxl" dxl
      = ("xxs", dxs) :: (T ++ [("xxl", dxl)]) := by
    rw [dictSet, if_neg hne, dictSet_not_mem T "xxl" dxl hxxl]
  rw [hset]

/-- Frame property of `augment`: a successful run never changes the
value stored under any key other than `xxs` and `xxl`. -/
theorem augment_get_ne (T T' : ConfigTable) (h : augment T = some T')
    (k : String) (h1 : k ≠ "xxs") (h2 : k ≠ "xxl") :
    dictGet? T' k = dictGet? T k := by
  rw [augment] at h
  by_cases hxs : dictMem T "xs" = true
  swap
  · rw [if_neg hxs] at h
    injection h with h'
    subst h'
    rfl
  rw [if_pos hxs] at h
  by_cases hboth : (dictMem T "xxs" && dictMem T "xxl") = true
  · rw [if_pos hboth] at h
    injection h with h'
    subst h'
    rfl
  · rw [if_neg hboth] at h
    obtain ⟨mc1, hmc1, h⟩ := Option.bind_eq_some.mp h
    have gmc1 : dictGet? mc1 k = dictGet? T k := by
      by_cases hxse : (dictGetD T "xs" ([] : TierConfig)).isEmpty = true
      · rw [if_pos hxse] at hmc1
        injection hmc1 with h'
        subst h'
        rfl
      · rw [if_neg hxse] at hmc1
        obtain ⟨dxs, _, hmc1⟩ := Option.map_eq_some'.mp hmc1
        subst hmc1
        exact dictGet?_prepend_ne T "xxs" k dxs h1
    by_cases hxle : (dictGetD T "xl" ([] : TierConfig)).isEmpty = true
    · rw [if_pos hxle] at h
      injection h with h'
      subst h'
      exact gmc1
    · rw [if_neg hxle] at h
      obtain ⟨dxl, _, h⟩ := Option.map_eq_some'.mp h
      subst h
      rw [dictGet?_set_ne _ _ _ _ h2]
      exact gmc1

/-- `augment` is idempotent: a successful result is a fixed point. -/
theorem augment_idem (T T' : ConfigTable) (h : augment T = some T') :
    augment T' = some T' := by
  by_cases hxs : dictMem T "xs" = true
  swap
  · rw [augment_no_xs T (Bool.eq_false_iff.mpr hxs)] at h
    injection h with h'
    subst h'
    exact augment_no_xs T (Bool.eq_false_iff.mpr hxs)
  rw [augment, if_pos hxs] at h
  by_cases hboth : (dictMem T "xxs" && dictMem T "xxl") = true
  · rw [if_pos hboth] at h
    injection h with h'
    subst h'
    rw [augment, if_pos hxs, if_pos hboth]
  rw [if_neg hboth] at h
  obtain ⟨mc1, hmc1, h⟩ := Option.bind_eq_some.mp h
  by_cases hxse : (dictGetD T "xs" ([] : TierConfig)).isEmpty = true
  · rw [if_pos hxse] at hmc1
    injection hmc1 with hmc1'
    subst hmc1'
    by_cases hxle : (dictGetD T "xl" ([] : TierConfig)).isEmpty = true
    · rw [if_pos hxle] at h
      injection h with h'
      subst h'
      rw [augment, if_pos hxs, if_neg hboth, if_pos hxse]
      simp only [Option.some_bind]
      rw [if_pos hxle]
    · rw [if_neg hxle] at h
      obtain ⟨dxl, hdxl, h⟩ := Option.map_eq_some'.mp h
      subst h
      have hmem' : dictMem (dictSet T "xxl" dxl) "xs" = true := by
        rw [dictMem_set]
        simp [hxs]
      have hgxs : dictGetD (dictSet T "xxl" dxl) "xs" ([] : TierConfig)
          = dictGetD T "xs" [] := by
        rw [dictGetD, dictGetD, dictGet?_set_ne _ _ _ _ (by decide)]
      have hgxl : dictGetD (dictSet T "xxl" dxl) "xl" ([] : TierConfig)
          = dictGetD T "xl" [] := by
        rw [dictGetD, dictGetD, dictGet?_set_ne _ _ _ _ (by decide)]
      by_cases hxxs : dictMem T "xxs" = true
      · have hboth' : (dictMem (dictSet T "xxl" dxl) "xxs"
            && dictMem (dictSet T "xxl" dxl) "xxl") = true := by
          rw [dictMem_set, dictMem_set]
          simp [hxxs]
        rw [augment, if_pos hmem', if_pos hboth']
      · have hboth' : (dictMem (dictSet T "xxl" dxl) "xxs"
            && dictMem (dictSet T "xxl" dxl) "xxl") = false := by
          rw [dictMem_set]
          simp [Bool.eq_false_iff.mpr hxxs]
        rw [augment, if_pos hmem', hboth']
        simp only [Bool.false_eq_true, if_false]
        rw [hgxs, if_pos hxse]
        simp only [Option.some_bind]
        rw [hgxl, if_neg hxle, hdxl]
        simp only [Option.map_some']
        rw [dictSet_set_self]
  · rw [if_neg hxse] at hmc1
    obtain ⟨dxs, hdxs, hmc1⟩ := Option.map_eq_some'.mp hmc1
    subst hmc1
    by_cases hxle : (dictGetD T "xl" ([] : TierConfig)).isEmpty = true
    · rw [if_pos hxle] at h
      injection h with h'
      subst h'
      have hmem' : dictMem (dictPrepend "xxs" dxs T) "xs" = true := by
        rw [dictMem_prepend]
        simp [hxs]
      by_cases hxxl : dictMem T "xxl" = true
      · have hboth' : (dictMem (dictPrepend "xxs" dxs T) "xxs"
            && dictMem (dictPrepend "xxs" dxs T) "xxl") = true := by
          rw [dictMem_prepend, dictMem_prepend]
          simp [hxxl]
        rw [augment, if_pos hmem', if_pos hboth']
      · have hboth' : (dictMem (dictPrepend "xxs" dxs T) "xxs"
            && dictMem (dictPrepend "xxs" dxs T) "xxl") = false := by
          rw [dictMem_prepend, dictMem_prepend]
          simp [Bool.eq_false_iff.mpr hxxl]
        rw [augment, if_pos hmem', hboth']
        simp only [Bool.false_eq_true, if_false]
        have hgxs : dictGetD (dictPrepend "xxs" dxs T) "xs"
            ([] : TierConfig) = dictGetD T "xs" [] := by
          rw [dictGetD, dictGetD, dictGet?_prepend_ne _ _ _ _ (by decide)]
        have hgxl : dictGetD (dictPrepend "xxs" dxs T) "xl"
            ([] : TierConfig) = dictGetD T "xl" [] := by
          rw [dictGetD, dictGetD, dictGet?_prepend_ne _ _ _ _ (by decide)]
        rw [hgxs, if_neg hxse, hdxs]
        simp only [Option.map_some', Option.some_bind]
        rw [hgxl, if_pos hxle, dictPrepend_prepend]
    · rw [if_neg hxle] at h
      obtain ⟨dxl, hdxl, h⟩ := Option.map_eq_some'.mp h
      subst h
      have hmem' : dictMem (dictSet (dictPrepend "xxs" dxs T) "xxl" dxl)
          "xs" = true := by
        rw [dictMem_set, dictMem_prepend]
        simp [hxs]
      have hboth' : (dictMem (dictSet (dictPrepend "xxs" dxs T) "xxl" dxl)
            "xxs"
          && dictMem (dictSet (dictPrepend "xxs" dxs T) "xxl" dxl) "xxl")
          = true := by
        rw [dictMem_set, dictMem_set, dictMem_prepend]
        simp
      rw [augment, if_pos hmem', if_pos hboth']

/-- Per-model view of the registry loop: the table stored under a model
hash in the output is `augment` of the table stored under it in the
input. -/
theorem add_enhanced_tiers_pointwise (r r' : ModelRegistry)
    (h : add_enhanced_tiers r = some r') (m : String) (T T' : ConfigTable)
    (hT : dictGet? r m = some T) (hT' : dictGet? r' m = some T') :
    augment T = some T' := by
  induction r generalizing r' with
  | nil => cases hT
  | cons p t ih =>
    rw [add_enhanced_tiers] at h
    obtain ⟨t2, ht2, h⟩ := Option.bind_eq_some.mp h
    obtain ⟨rest, hrest, h⟩ := Option.bind_eq_some.mp h
    injection h with h'
    subst h'
    by_cases hm : p.1 = m
    · rw [dictGet?, if_pos hm] at hT
      injection hT with hT
      subst hT
      rw [dictGet?] at hT'
      rw [if_pos hm] at hT'
      injection hT' with hT'
      subst hT'
      exact ht2
    · rw [dictGet?, if_neg hm] at hT
      rw [dictGet?] at hT'
      rw [if_neg hm] at hT'
      exact ih rest hrest hT hT'

/-- With an empty (or absent) `xl`, `augment` leaves the presence of the
`xxl` key exactly as it found it. -/
theorem augment_xxl_of_empty_xl (T T' : ConfigTable)
    (h : augment T = some T')
    (hxl : dictGetD T "xl" ([] : TierConfig) = []) :
    dictMem T' "xxl" = dictMem T "xxl" := by
  rw [augment] at h
  by_cases hxs : dictMem T "xs" = true
  swap
  · rw [if_neg hxs] at h
    injection h with h'
    subst h'
    rfl
  rw [if_pos hxs] at h
  by_cases hboth : (dictMem T "xxs" && dictMem T "xxl") = true
  · rw [if_pos hboth] at h
    injection h with h'
    subst h'
    rfl
  · rw [if_neg hboth] at h
    obtain ⟨mc1, hmc1, h⟩ := Option.bind_eq_some.mp h
    have hmem1 : dictMem mc1 "xxl" = dictMem T "xxl" := by
      by_cases hxse : (dictGetD T "xs" ([] : TierConfig)).isEmpty = true
      · rw [if_pos hxse] at hmc1
        injection hmc1 with h'
        subst h'
        rfl
      · rw [if_neg hxse] at hmc1
        obtain ⟨dxs, _, hmc1⟩ := Option.map_eq_some'.mp hmc1
        subst hmc1
        rw [dictMem_prepend]
        rfl
    rw [hxl] at h
    simp only [List.isEmpty_nil, if_true] at h
    injection h with h'
    subst h'
    exact hmem1

theorem dyBeqS_eq (x y : Dy) (h : dyBeqS x y = true) : x = y := by
  cases x with
  | mk xn xd =>
    cases y with
    | mk yn yd =>
      simp only [dyBeqS, Bool.and_eq_true, beq_iff_eq] at h
      rw [h.1, h.2]

theorem pvBeqS_eq (v w : PValue) (h : pvBeqS v w = true) : v = w := by
  cases v with
  | num x =>
    cases w with
    | num y =>
      simp only [pvBeqS] at h
      rw [dyBeqS_eq _ _ h]
    | str t => simp [pvBeqS] at h
    | strList m => simp [pvBeqS] at h
  | str s =>
    cases w with
    | num y => simp [pvBeqS] at h
    | str t =>
      simp only [pvBeqS] at h
      rw [eq_of_beq h]
    | strList m => simp [pvBeqS] at h
  | strList l =>
    cases w with
    | num y => simp [pvBeqS] at h
    | str t => simp [pvBeqS] at h
    | strList m =>
      simp only [pvBeqS] at h
      rw [eq_of_beq h]

theorem tcBeqS_eq (t : TierConfig) : ∀ u, tcBeqS t u = true → t = u := by
  induction t with
  | nil =>
    intro u h
    cases u with
    | nil => rfl
    | cons q u => simp [tcBeqS] at h
  | cons p t ih =>
    intro u h
    cases u with
    | nil => simp [tcBeqS] at h
    | cons q u =>
      obtain ⟨pk, pv⟩ := p
      obtain ⟨qk, qv⟩ := q
      simp only [tcBeqS, Bool.and_eq_true, beq_iff_eq] at h
      obtain ⟨⟨h1, h2⟩, h3⟩ := h
      rw [h1, pvBeqS_eq _ _ h2, ih u h3]

theorem ctBeqS_eq (t : ConfigTable) : ∀ u, ctBeqS t u = true → t = u := by
  induction t with
  | nil =>
    intro u h
    cases u with
    | nil => rfl
    | cons q u => simp [ctBeqS] at h
  | cons p t ih =>
    intro u h
    cases u with
    | nil => simp [ctBeqS] at h
    | cons q u =>
      obtain ⟨pk, pv⟩ := p
      obtain ⟨qk, qv⟩ := q
      simp only [ctBeqS, Bool.and_eq_true, beq_iff_eq] at h
      obtain ⟨⟨h1, h2⟩, h3⟩ := h
      rw [h1, tcBeqS_eq _ _ h2, ih u h3]

theorem regBeqS_eq (t : ModelRegistry) : ∀ u, regBeqS t u = true → t = u := by
  induction t with
  | nil =>
    intro u h
    cases u with
    | nil => rfl
    | cons q u => simp [regBeqS] at h
  | cons p t ih =>
    intro u h
    cases u with
    | nil => simp [regBeqS] at h
    | cons q u =>
      obtain ⟨pk, pv⟩ := p
      obtain ⟨qk, qv⟩ := q
      simp only [regBeqS, Bool.and_eq_true, beq_iff_eq] at h
      obtain ⟨⟨h1, h2⟩, h3⟩ := h
      rw [h1, ctBeqS_eq _ _ h2, ih u h3]

theorem optBeqS_eq {α : Type} (f : α → α → Bool)
    (hf : ∀ a b, f a b = true → a = b) :
    ∀ x y, optBeqS f x y = true → x = y := by
  intro x y h
  cases x with
  | none =>
    cases y with
    | none => rfl
    | some b => simp [optBeqS] at h
  | some a =>
    cases y with
    | none => simp [optBeqS] at h
    | some b =>
      simp only [optBeqS] at h
      rw [hf _ _ h]

theorem eq_of_optTcBeqS (x y : Option TierConfig)
    (h : optBeqS tcBeqS x y = true) : x = y :=
  optBeqS_eq tcBeqS tcBeqS_eq x y h

theorem eq_of_optCtBeqS (x y : Option ConfigTable)
    (h : optBeqS ctBeqS x y = true) : x = y :=
  optBeqS_eq ctBeqS ctBeqS_eq x y h

theorem eq_of_optRegBeqS (x y : Option ModelRegistry)
    (h : optBeqS regBeqS x y = true) : x = y :=
  optBeqS_eq regBeqS regBeqS_eq x y h

theorem tcBeqS_refl (t : TierConfig) : tcBeqS t t = true := by
  induction t with
  | nil => rfl
  | cons p t ih =>
    obtain ⟨pk, pv⟩ := p
    simp only [tcBeqS, Bool.and_eq_true, beq_iff_eq]
    refine ⟨⟨trivial, ?_⟩, ih⟩
    cases pv <;> simp [pvBeqS, dyBeqS]

theorem ctBeqS_refl (t : ConfigTable) : ctBeqS t t = true := by
  induction t with
  | nil => rfl
  | cons p t ih =>
    simp only [ctBeqS, Bool.and_eq_true, beq_iff_eq]
    exact ⟨⟨trivial, tcBeqS_refl p.2⟩, ih⟩

theorem regBeqS_refl (t : ModelRegistry) : regBeqS t t = true := by
  induction t with
  | nil => rfl
  | cons p t ih =>
    simp only [regBeqS, Bool.and_eq_true, beq_iff_eq]
    exact ⟨⟨trivial, ctBeqS_refl p.2⟩, ih⟩

/-- Distinctness bridge: a `false` boolean comparison on `Option`
registries refutes propositional equality. -/
theorem ne_of_optRegBeqS (x y : Option ModelRegistry)
    (h : optBeqS regBeqS x y = false) : x ≠ y := by
  intro he
  subst he
  cases x with
  | none => cases h
  | some r => rw [optBeqS, regBeqS_refl r] at h; cases h

/-! ### Claims -/

/-- C1 (counterexample): the claim says a table with a non-empty `xl`
tier but no `xs` key gets a derived `xxl`.  On the code, `tC1 = {"xl":
{"max_train_epochs": 20}}` has no `xs` key, so line 14 skips the whole
derivation: `augment` returns the table unchanged and no `xxl` key is
present. -/
theorem C1_counterexample :
    dictMem tC1 "xs" = false ∧ dictGet? tC1 "xl" = some xlW ∧
    xlW.isEmpty = false ∧ augment tC1 = some tC1 ∧
    dictMem tC1 "xxl" = false := by
  refine ⟨by decide, by decide, by decide, ?_, by decide⟩
  exact augment_no_xs tC1 (by decide)

/-- C1 (amended): derivation is gated on the presence of the `xs` key
(line 14).  For a table that has `xs` (and not both derived keys), a
non-empty `xl` always yields the freshly derived `xxl` in the result —
independently of the content of `xs`; a table without `xs` is returned
unchanged (so no `xxl` is derived for it, even when `xl` is non-empty). -/
theorem C1_xs_gated (T U : ConfigTable) (xl0 dxl : TierConfig)
    (hmem : dictMem T "xs" = true)
    (hnb : (dictMem T "xxs" && dictMem T "xxl") = false)
    (hxl : dictGet? T "xl" = some xl0) (hxlne : xl0.isEmpty = false)
    (hdl : deriveXXL xl0 = some dxl)
    (hxsb : (dictGetD T "xs" ([] : TierConfig)).isEmpty = true ∨
      ∃ dxs, deriveXXS (dictGetD T "xs" ([] : TierConfig)) = some dxs)
    (hU : dictMem U "xs" = false) :
    (augment T).map (fun T' => dictGet? T' "xxl") = some (some dxl) ∧
    augment U = some U := by
  refine ⟨?_, augment_no_xs U hU⟩
  rw [augment, if_pos hmem, hnb]
  simp only [Bool.false_eq_true, if_false]
  have hxlr : dictGetD T "xl" ([] : TierConfig) = xl0 := by
    rw [dictGetD, hxl, Option.getD_some]
  by_cases hxse : (dictGetD T "xs" ([] : TierConfig)).isEmpty = true
  · rw [if_pos hxse]
    simp only [Option.some_bind]
    rw [hxlr, hxlne]
    simp only [Bool.false_eq_true, if_false]
    rw [hdl]
    simp only [Option.map_some']
    rw [dictGet?_set_self]
  · rcases hxsb with he | ⟨dxs, hdxs⟩
    · exact absurd he hxse
    · rw [if_neg hxse, hdxs]
      simp only [Option.map_some', Option.some_bind]
      rw [hxlr, hxlne]
      simp only [Bool.false_eq_true, if_false]
      rw [hdl]
      simp only [Option.map_some']
      rw [dictGet?_set_self]

/-- C1 (witness): at `tC1T = {"xs": …, "xl": …}` the derived `xxl`
appears; the no-`xs` table `tC1` is returned unchanged. -/
theorem C1_xs_gated_witness :
    (augment tC1T).map (fun T' => dictGet? T' "xxl") = some (some xxlW) ∧
    augment tC1 = some tC1 :=
  C1_xs_gated tC1T tC1 xlW xxlW (by decide) (by decide) (by decide)
    (by decide) (by decide) (Or.inr ⟨xxsSmall, by decide⟩) (by decide)

/-- C2 (counterexample): `add_enhanced_tiers` assigns into the `data`
mapping of its argument (line 65) and returns the same object (line 67),
so after the call on `regC2` the caller's input object no longer holds
its original value: the call has an observable side effect on the
input. -/
theorem C2_counterexample :
    add_enhanced_tiers_inputAfter regC2 ≠ some regC2 :=
  ne_of_optRegBeqS _ _ (by decide)

/-- C2 (amended): the function mutates its input in place (the returned
registry is the argument object), but it is a frame-respecting update:
for every model entry, every tier key other than `xxs` and `xxl` holds
exactly the value it held in the input. -/
theorem C2_frame (r r' : ModelRegistry) (h : add_enhanced_tiers r = some r')
    (m : String) (T T' : ConfigTable) (hT : dictGet? r m = some T)
    (hT' : dictGet? r' m = some T') (k : String)
    (h1 : k ≠ "xxs") (h2 : k ≠ "xxl") :
    dictGet? T' k = dictGet? T k :=
  augment_get_ne T T' (add_enhanced_tiers_pointwise r r' h m T T' hT hT')
    k h1 h2

/-- C2 (witness): in the augmented `regC2` the model's `xs` tier is
untouched. -/
theorem C2_frame_witness :
    dictGet? [("xxs", xxsSmall), ("xs", xsSmall)] "xs"
      = dictGet? [("xs", xsSmall)] "xs" :=
  C2_frame regC2 regC2' (eq_of_optRegBeqS _ _ (by decide)) "m1"
    [("xs", xsSmall)] [("xxs", xxsSmall), ("xs", xsSmall)]
    (by decide) (by decide) "xs" (by decide) (by decide)

/-- C3: `augment` is idempotent — a successful result is a fixed point
of `augment` — and a table that already has both `xxs` and `xxl` is
returned unmodified. -/
theorem C3_idempotent (T T' : ConfigTable) (h : augment T = some T') :
    augment T' = some T' ∧
    ((dictMem T "xxs" && dictMem T "xxl") = true → T' = T) := by
  refine ⟨augment_idem T T' h, ?_⟩
  intro hb
  by_cases hxs : dictMem T "xs" = true
  · rw [augment, if_pos hxs, if_pos hb] at h
    injection h with h'
    exact h'.symm
  · rw [augment_no_xs T (Bool.eq_false_iff.mpr hxs)] at h
    injection h with h'
    exact h'.symm

/-- C3 (witness): the augmented `tC3` is a fixed point. -/
theorem C3_idempotent_witness :
    augment tC3' = some tC3' ∧
    ((dictMem tC3 "xxs" && dictMem tC3 "xxl") = true → tC3' = tC3) :=
  C3_idempotent tC3 tC3' (by decide)

/-- C4: on a table that has non-empty `xs` and `xl` and neither derived
key, the result is literally `xxs` first, then every pre-existing entry
in its original order, then `xxl` last. -/
theorem C4_order (T : ConfigTable) (xs0 xl0 dxs dxl : TierConfig)
    (hxs : dictGet? T "xs" = some xs0) (hxsne : xs0.isEmpty = false)
    (hxl : dictGet? T "xl" = some xl0) (hxlne : xl0.isEmpty = false)
    (hxxs : dictMem T "xxs" = false) (hxxl : dictMem T "xxl" = false)
    (hds : deriveXXS xs0 = some dxs) (hdl : deriveXXL xl0 = some dxl) :
    augment T = some (("xxs", dxs) :: (T ++ [("xxl", dxl)])) :=
  augment_fresh T xs0 xl0 dxs dxl hxs hxsne hxl hxlne hxxs hxxl hds hdl

/-- C4 (witness): at a three-tier table the output is `xxs`, the three
original tiers in order, then `xxl`. -/
theorem C4_order_witness :
    augment tC4 = some (("xxs", xxsSmall) :: (tC4 ++ [("xxl", xxlW)])) :=
  C4_order tC4 xsSmall xlW xxsSmall xxlW (by decide) (by decide)
    (by decide) (by decide) (by decide) (by decide) (by decide) (by decide)

/-- C5 (counterexample): the claim's "all other xs fields unchanged" is
false — at `xs = {"optimizer_args": ["weight_decay=0.01"]}` the derived
`xxs` has its `optimizer_args` (a field outside the claim's override
list) replaced with the fixed three-element sequence. -/
theorem C5_counterexample :
    deriveXXS xsOptC5 = some xxsOptRaw ∧
    dictGet? xxsOptRaw "optimizer_args"
      = some (.strList fixedOptimizerArgs) ∧
    dictGet? xsOptC5 "optimizer_args"
      = some (.strList ["weight_decay=0.01"]) ∧
    PValue.strList fixedOptimizerArgs
      ≠ PValue.strList ["weight_decay=0.01"] := by
  refine ⟨by decide, by decide, by decide, by decide⟩

/-- C5 (amended): for every non-empty `xs`, the derived `xxs` applies
exactly the claimed overrides (`max_train_epochs + 7`, fixed batch /
accumulation / noise / scheduler / workers values, learning rates scaled
by the binary64 `0.8` when present and absent otherwise) and carries
every *other* field over unchanged — except `optimizer_args`, which is
replaced by the fixed list exactly when its rendering mentions
`weight_decay` (the rule of C8); the spec's concrete scenario yields
exactly the stated `xxs` (Python `dict` equality). -/
theorem C5_xxs_fields (c : TierConfig) (_hne : c.isEmpty = false) (e : Dy)
    (he : pyNumD c "max_train_epochs" (Dy.ofInt 38) = some e)
    (d : TierConfig) (hd : deriveXXS c = some d) :
    dictGet? d "max_train_epochs" = some (.num (Dy.add e (Dy.ofInt 7))) ∧
    dictGet? d "train_batch_size" = some (.num (Dy.ofInt 2)) ∧
    dictGet? d "gradient_accumulation_steps" = some (.num (Dy.ofInt 4)) ∧
    (∀ x, dictGet? c "unet_lr" = some (.num x) →
      dictGet? d "unet_lr" = some (.num (pyMulF x lit_0_8))) ∧
    (dictGet? c "unet_lr" = none → dictGet? d "unet_lr" = none) ∧
    (∀ x, dictGet? c "text_encoder_lr" = some (.num x) →
      dictGet? d "text_encoder_lr" = some (.num (pyMulF x lit_0_8))) ∧
    (dictGet? c "text_encoder_lr" = none →
      dictGet? d "text_encoder_lr" = none) ∧
    dictGet? d "noise_offset" = some (.num lit_0_015) ∧
    dictGet? d "lr_scheduler" = some (.str "constant_with_warmup") ∧
    dictGet? d "max_data_loader_n_workers" = some (.num (Dy.ofInt 2)) ∧
    (containsWD (pyStr (dictGetD c "optimizer_args" (.strList []))) = true →
      dictGet? d "optimizer_args" = some (.strList fixedOptimizerArgs)) ∧
    (containsWD (pyStr (dictGetD c "optimizer_args" (.strList []))) = false →
      dictGet? d "optimizer_args" = dictGet? c "optimizer_args") ∧
    (∀ k, ¬ (k ∈ xxsTouched) → dictGet? d k = dictGet? c k) ∧
    (deriveXXS xsScen).map (fun dd => tierBeq dd xxsScen) = some true := by
  obtain ⟨a1, a2, a3, a4, a5, a6, a7, a8, a9, a10, a11, a12, a13⟩ :=
    deriveXXS_char c e he d hd
  exact ⟨a1, a2, a3, a4, a5, a6, a7, a8, a9, a10, a11, a12, a13, by decide⟩

/-- C5 (witness): the overrides at the one-field `xs` fixture. -/
theorem C5_xxs_fields_witness :
    dictGet? xxsSmall "max_train_epochs"
      = some (.num (Dy.add (Dy.ofInt 38) (Dy.ofInt 7))) :=
  (C5_xxs_fields xsSmall (by decide) (Dy.ofInt 38) (by decide) xxsSmall
    (by decide)).1

/-- C6 (counterexample): at `xl = {"unet_lr": 1e-6}` the derived
`xxl.unet_lr` is the binary64 product `1e-6 ·f64 1.15 =
1.1499999999999998e-06`, which is *not* numerically equal (Python `==`)
to the double denoted by the literal `1.15e-06`; the claim's "input 1e-6
gives exactly 1.15e-06" fails on the code. -/
theorem C6_counterexample :
    (deriveXXL xl1em6).map (fun d => dictGet? d "unet_lr")
      = some (some (.num (pyMulF (flRat 1 1000000) lit_1_15))) ∧
    Dy.beq (pyMulF (flRat 1 1000000) lit_1_15) (flRat 115 100000000)
      = false := by
  refine ⟨by decide, by decide⟩

/-- C6 (amended): for every non-empty `xl`, a present `unet_lr` becomes
`min(5e-05, unet_lr ·f64 1.15)` and a present `text_encoder_lr` becomes
`min(2.5e-06, text_encoder_lr ·f64 1.15)` (binary64 arithmetic); absent
fields stay absent.  Input `1e-4` gives exactly `5e-05` (clamped); input
`1e-6` gives the binary64 product `1.1499999999999998e-06`, one unit in
the last place *below* the literal `1.15e-06`. -/
theorem C6_lr_clamped (c : TierConfig) (_hne : c.isEmpty = false)
    (e b w : Dy)
    (he : pyNumD c "max_train_epochs" (Dy.ofInt 11) = some e)
    (hb : pyNumD c "train_batch_size" (Dy.ofInt 12) = some b)
    (hww : pyNumD c "lr_warmup_steps" (Dy.ofInt 120) = some w)
    (d : TierConfig) (hd : deriveXXL c = some d) :
    (∀ x, dictGet? c "unet_lr" = some (.num x) →
      dictGet? d "unet_lr"
        = some (.num (Dy.pyMin lit_5em5 (pyMulF x lit_1_15)))) ∧
    (dictGet? c "unet_lr" = none → dictGet? d "unet_lr" = none) ∧
    (∀ x, dictGet? c "text_encoder_lr" = some (.num x) →
      dictGet? d "text_encoder_lr"
        = some (.num (Dy.pyMin lit_2_5em6 (pyMulF x lit_1_15)))) ∧
    (dictGet? c "text_encoder_lr" = none →
      dictGet? d "text_encoder_lr" = none) ∧
    (deriveXXL xl1em4).map (fun dd => dictGet? dd "unet_lr")
      = some (some (.num lit_5em5)) ∧
    (deriveXXL xl1em6).map (fun dd => dictGet? dd "unet_lr")
      = some (some (.num (pyMulF (flRat 1 1000000) lit_1_15))) := by
  obtain ⟨_, _, _, a4, a5, a6, a7, _, _, _, _, _⟩ :=
    deriveXXL_char c e b w he hb hww d hd
  exact ⟨a4, a5, a6, a7, by decide, by decide⟩

/-- C6 (witness): at `xl1em4` the scaled-and-clamped formula applies to
the present `unet_lr`. -/
theorem C6_lr_clamped_witness :
    dictGet? xxl1em4 "unet_lr"
      = some (.num (Dy.pyMin lit_5em5 (pyMulF (flRat 1 10000) lit_1_15))) :=
  (C6_lr_clamped xl1em4 (by decide) (Dy.ofInt 11) (Dy.ofInt 12)
    (Dy.ofInt 120) (by decide) (by decide) (by decide) xxl1em4
    (eq_of_optTcBeqS _ _ (by decide))).1 (flRat 1 10000) (by decide)

/-- C7: for every non-empty `xl`, the derived `xxl`'s non-learning-rate
fields are `max(8, epochs − 3)`, `min(16, batch + 4)`, accumulation 1,
noise `0.045`, scheduler `"cosine"`, warmup `+ 30`, 8 workers, and every
field outside the written set is copied from `xl` unchanged. -/
theorem C7_xxl_fields (c : TierConfig) (_hne : c.isEmpty = false)
    (e b w : Dy)
    (he : pyNumD c "max_train_epochs" (Dy.ofInt 11) = some e)
    (hb : pyNumD c "train_batch_size" (Dy.ofInt 12) = some b)
    (hww : pyNumD c "lr_warmup_steps" (Dy.ofInt 120) = some w)
    (d : TierConfig) (hd : deriveXXL c = some d) :
    dictGet? d "max_train_epochs"
      = some (.num (Dy.pyMax (Dy.ofInt 8) (Dy.sub e (Dy.ofInt 3)))) ∧
    dictGet? d "train_batch_size"
      = some (.num (Dy.pyMin (Dy.ofInt 16) (Dy.add b (Dy.ofInt 4)))) ∧
    dictGet? d "gradient_accumulation_steps" = some (.num (Dy.ofInt 1)) ∧
    dictGet? d "noise_offset" = some (.num lit_0_045) ∧
    dictGet? d "lr_scheduler" = some (.str "cosine") ∧
    dictGet? d "lr_warmup_steps" = some (.num (Dy.add w (Dy.ofInt 30))) ∧
    dictGet? d "max_data_loader_n_workers" = some (.num (Dy.ofInt 8)) ∧
    (∀ k, ¬ (k ∈ xxlTouched) → dictGet? d k = dictGet? c k) := by
  obtain ⟨a1, a2, a3, _, _, _, _, a8, a9, a10, a11, a12⟩ :=
    deriveXXL_char c e b w he hb hww d hd
  exact ⟨a1, a2, a3, a8, a9, a10, a11, a12⟩

/-- C7 (witness): the floored epoch count at `xl = {"max_train_epochs":
20}` (spec §8: `20 ⇒ 17`). -/
theorem C7_xxl_fields_witness :
    dictGet? xxlW "max_train_epochs"
      = some (.num (Dy.pyMax (Dy.ofInt 8)
          (Dy.sub (Dy.ofInt 20) (Dy.ofInt 3)))) :=
  (C7_xxl_fields xlW (by decide) (Dy.ofInt 20) (Dy.ofInt 12)
    (Dy.ofInt 120) (by decide) (by decide) (by decide) xxlW (by decide)).1

/-- C8: the derived `xxs`'s `optimizer_args` is replaced wholesale with
the fixed three-element sequence exactly when the naive string rendering
of the `xs` value (default `[]`) contains the substring `weight_decay`,
and is left untouched otherwise. -/
theorem C8_substring_rule (c : TierConfig) (e : Dy)
    (he : pyNumD c "max_train_epochs" (Dy.ofInt 38) = some e)
    (d : TierConfig) (hd : deriveXXS c = some d) :
    (containsWD (pyStr (dictGetD c "optimizer_args" (.strList []))) = true →
      dictGet? d "optimizer_args" = some (.strList fixedOptimizerArgs)) ∧
    (containsWD (pyStr (dictGetD c "optimizer_args" (.strList []))) = false →
      dictGet? d "optimizer_args" = dictGet? c "optimizer_args") := by
  obtain ⟨_, _, _, _, _, _, _, _, _, _, a11, a12, _⟩ :=
    deriveXXS_char c e he d hd
  exact ⟨a11, a12⟩

/-- C8 (witness): the rendering of `["weight_decay=0.01"]` mentions
`weight_decay`, so the derived list is the fixed sequence. -/
theorem C8_substring_rule_witness :
    containsWD (pyStr (dictGetD xsOptC5 "optimizer_args"
      (PValue.strList []))) = true ∧
    dictGet? xxsOptRaw "optimizer_args"
      = some (.strList fixedOptimizerArgs) :=
  ⟨by decide, (C8_substring_rule xsOptC5 (Dy.ofInt 38) (by decide)
    xxsOptRaw (by decide)).1 (by decide)⟩

/-- C9 (counterexample): the claim says a table with no `xs` key yields
an output with no `xxs` key; but `tC9x = {"xxs": {}}` has no `xs` key
and is returned unchanged, so the output *does* contain `xxs`. -/
theorem C9_counterexample :
    dictMem tC9x "xs" = false ∧ augment tC9x = some tC9x ∧
    dictMem tC9x "xxs" = true := by
  refine ⟨by decide, augment_no_xs tC9x (by decide), by decide⟩

/-- C9 (amended): skip-on-absence without error, stated about what
`augment` *adds*: a table without `xs` is returned unchanged (hence
gains no `xxs` and no error is raised), and when `xl` is absent or
empty the presence of `xxl` in the output equals its presence in the
input. -/
theorem C9_skip_on_absence (T T' U : ConfigTable)
    (h : augment T = some T') (hU : dictMem U "xs" = false) :
    (dictMem T "xs" = false → T' = T) ∧
    (dictGetD T "xl" ([] : TierConfig) = [] →
      dictMem T' "xxl" = dictMem T "xxl") ∧
    augment U = some U := by
  refine ⟨?_, fun hxl => augment_xxl_of_empty_xl T T' h hxl,
    augment_no_xs U hU⟩
  intro hxs
  rw [augment_no_xs T hxs] at h
  injection h with h'
  exact h'.symm

/-- C9 (witness): at `tC9 = {"xs": …, "xl": {}}` no `xxl` appears, and
the no-`xs` table `uC9` passes through unchanged. -/
theorem C9_skip_on_absence_witness :
    (dictMem tC9 "xs" = false → tC9' = tC9) ∧
    (dictGetD tC9 "xl" ([] : TierConfig) = [] →
      dictMem tC9' "xxl" = dictMem tC9 "xxl") ∧
    augment uC9 = some uC9 :=
  C9_skip_on_absence tC9 tC9' uC9 (by decide) (by decide)

/-- C10: partial presence is handled asymmetrically.  With only `xxl`
pre-existing (and `xs` present, `xs` and `xl` non-empty), derivation
runs and the pre-existing `xxl` entry's value is overwritten with the
freshly re-derived one.  With only `xxs` pre-existing (and `xs` present
and non-empty), the pre-existing `xxs` keeps its value and sits first in
the result: the freshly derived `xxs` is discarded by the duplicate-key
merge of the prepend on line 44. -/
theorem C10_overwrite_asymmetry
    (S : ConfigTable) (sxs sxl dS dL : TierConfig)
    (hSxs : dictGet? S "xs" = some sxs) (hSxsne : sxs.isEmpty = false)
    (hSxxs : dictMem S "xxs" = false) (_hSxxl : dictMem S "xxl" = true)
    (hSxl : dictGet? S "xl" = some sxl) (hSxlne : sxl.isEmpty = false)
    (hSds : deriveXXS sxs = some dS) (hSdl : deriveXXL sxl = some dL)
    (T T' : ConfigTable) (txs dT vkeep : TierConfig)
    (hTxs : dictGet? T "xs" = some txs) (hTxsne : txs.isEmpty = false)
    (hTds : deriveXXS txs = some dT)
    (hTxxs : dictGet? T "xxs" = some vkeep)
    (hTxxl : dictMem T "xxl" = false)
    (hT' : augment T = some T') :
    (augment S).map (fun S' => dictGet? S' "xxl") = some (some dL) ∧
    dictGet? T' "xxs" = some vkeep ∧
    T'.head? = some ("xxs", vkeep) := by
  constructor
  · -- the S side: re-derivation overwrites the pre-existing `xxl`
    have hSmem : dictMem S "xs" = true := by
      rw [dictMem_eq_isSome, hSxs]
      rfl
    have hSnb : (dictMem S "xxs" && dictMem S "xxl") = false := by
      rw [hSxxs]
      rfl
    rw [augment, if_pos hSmem, hSnb]
    simp only [Bool.false_eq_true, if_false]
    have hg : dictGetD S "xs" ([] : TierConfig) = sxs := by
      rw [dictGetD, hSxs, Option.getD_some]
    have hgl : dictGetD S "xl" ([] : TierConfig) = sxl := by
      rw [dictGetD, hSxl, Option.getD_some]
    rw [hg, hSxsne]
    simp only [Bool.false_eq_true, if_false]
    rw [hSds]
    simp only [Option.map_some', Option.some_bind]
    rw [hgl, hSxlne]
    simp only [Bool.false_eq_true, if_false]
    rw [hSdl]
    simp only [Option.map_some']
    rw [dictGet?_set_self]
  · -- the T side: the pre-existing `xxs` survives the prepend merge
    have hTmem : dictMem T "xs" = true := by
      rw [dictMem_eq_isSome, hTxs]
      rfl
    have hTxxsm : dictMem T "xxs" = true := by
      rw [dictMem_eq_isSome, hTxxs]
      rfl
    have hTnb : (dictMem T "xxs" && dictMem T "xxl") = false := by
      rw [hTxxl, Bool.and_false]
    rw [augment, if_pos hTmem, hTnb] at hT'
    simp only [Bool.false_eq_true, if_false] at hT'
    have hgt : dictGetD T "xs" ([] : TierConfig) = txs := by
      rw [dictGetD, hTxs, Option.getD_some]
    rw [hgt, hTxsne] at hT'
    simp only [Bool.false_eq_true, if_false] at hT'
    rw [hTds] at hT'
    simp only [Option.map_some', Option.some_bind] at hT'
    have hpre : dictPrepend "xxs" dT T
        = ("xxs", vkeep) :: dictRemove T "xxs" := by
      rw [dictPrepend, if_pos hTxxsm, dictGetD, hTxxs, Option.getD_some]
    rw [hpre] at hT'
    by_cases hxle : (dictGetD T "xl" ([] : TierConfig)).isEmpty = true
    · rw [if_pos hxle] at hT'
      injection hT' with h'
      subst h'
      constructor
      · rw [dictGet?]
        simp
      · rfl
    · rw [if_neg hxle] at hT'
      obtain ⟨dxl2, _, hT'⟩ := Option.map_eq_some'.mp hT'
      subst hT'
      have hne1 : ¬(("xxs", vkeep).1 = "xxl") := by simp
      rw [dictSet, if_neg hne1]
      constructor
      · rw [dictGet?]
        simp
      · rfl

/-- C10 (witness): at `sC10` (pre-existing `xxl` first) the output's
`xxl` value is the freshly derived one; at `tC10` (pre-existing `xxs`
mid-table) the old `xxs` value survives and heads the output. -/
theorem C10_overwrite_asymmetry_witness :
    (augment sC10).map (fun S' => dictGet? S' "xxl") = some (some xxlW) ∧
    dictGet? tC10' "xxs" = some keepXXS ∧
    tC10'.head? = some ("xxs", keepXXS) :=
  C10_overwrite_asymmetry sC10 xsSmall xlW xxsSmall xxlW (by decide)
    (by decide) (by decide) (by decide) (by decide) (by decide)
    (by decide) (by decide) tC10 tC10' xsSmall xxsSmall keepXXS
    (by decide) (by decide) (by decide) (by decide) (by decide) (by decide)
